import Mathlib

/-!
Verification of the config-discovery and command-chaining core of the
`polyvers` repository (`src/polyvers/cmdlets.py`), shallowly embedded in
Lean 4.  Paths are plain strings over the posix separator, the filesystem
is an explicit finite structure, and every Python method under scrutiny is
translated to an executable Lean function that threads its state.

Helpers from `polyvers/fileutils.py` (`convpath`, `ensure_file_ext`,
`ensure_dir_exists`) are not part of the provided sources; they are
modelled from the specification text and carry a doc comment saying so.
-/

namespace Polyvers

/-! ## String and path helpers (Python `str` / `os.path` semantics) -/

/-- Characters of a string, as a list. -/
def strChars (s : String) : List Char := s.data

/-- Build a string back from its characters. -/
def charsToStr (l : List Char) : String := ⟨l⟩

/-- Python `s.endswith(suf)` on unicode code points. -/
def endsWithS (s suf : String) : Bool :=
  decide (suf.data.length ≤ s.data.length) &&
  decide (s.data.drop (s.data.length - suf.data.length) = suf.data)

/-- Python `s.endswith(tuple(exts))`: ends with any of the given suffixes. -/
def endsWithAny (s : String) (exts : List String) : Bool :=
  exts.any (fun e => endsWithS s e)

/-- Python `s.rstrip(chars)`: drop trailing characters that belong to the
character *set* `chars` (an empty `chars` strips nothing). -/
def pyRstrip (s chars : String) : String :=
  charsToStr (((s.data.reverse).dropWhile (fun c => decide (c ∈ chars.data))).reverse)

/-- `os.path.split` (posix): break at the last slash; the head keeps no
trailing slashes unless it consists of slashes only. -/
def osp_split (p : String) : String × String :=
  let d := p.data
  let tailRev := d.reverse.takeWhile (fun c => decide (c ≠ '/'))
  if tailRev.length = d.length then
    ("", p)
  else
    let headAll := d.take (d.length - tailRev.length)
    let head :=
      if headAll.all (fun c => decide (c = '/')) then headAll
      else (headAll.reverse.dropWhile (fun c => decide (c = '/'))).reverse
    (charsToStr head, charsToStr tailRev.reverse)

/-- `os.path.join` (posix) for two components. -/
def pathJoin (a b : String) : String :=
  if b.data.head? = some '/' then b
  else if a = "" then b
  else if a.data.getLast? = some '/' then a ++ b
  else a ++ "/" ++ b

/-- `os.path.splitext` (posix): split off the extension after the last dot
of the basename, unless the basename up to that dot is made of dots only. -/
def splitext (p : String) : String × String :=
  let d := p.data
  let afterDot := d.reverse.takeWhile (fun c => decide (c ≠ '.'))
  if afterDot.length = d.length then
    (p, "")
  else
    let dotIdx := d.length - afterDot.length - 1
    let afterSlash := d.reverse.takeWhile (fun c => decide (c ≠ '/'))
    let baseStart := d.length - afterSlash.length
    if decide (baseStart ≤ dotIdx) &&
        ((d.drop baseStart).take (dotIdx - baseStart)).any (fun c => decide (c ≠ '.')) then
      (charsToStr (d.take dotIdx), charsToStr (d.drop dotIdx))
    else
      (p, "")

/-- ASCII lower-casing of a character (Python `str.lower` restricted to the
ASCII range, which is all the extensions use). -/
def asciiLowerChar (c : Char) : Char :=
  if decide ('A' ≤ c) && decide (c ≤ 'Z') then Char.ofNat (c.toNat + 32) else c

/-- Python `str.lower` on ASCII strings. -/
def asciiLower (s : String) : String := charsToStr (s.data.map asciiLowerChar)

/-- Code-point lexicographic comparison of character lists. -/
def charListLe : List Char → List Char → Bool
  | [], _ => true
  | _ :: _, [] => false
  | a :: as, b :: bs => if a < b then true else if b < a then false else charListLe as bs

/-- Code-point lexicographic `≤` on strings (Python string ordering). -/
def strLe (s t : String) : Bool := charListLe s.data t.data

/-- Insert into a lexicographically sorted list of strings. -/
def insertSorted (x : String) : List String → List String
  | [] => [x]
  | y :: ys => if strLe x y then x :: y :: ys else y :: insertSorted x ys

/-- Python `sorted` on a list of strings (lexicographic). -/
def sortStrings (l : List String) : List String := l.foldr insertSorted []

/-! ## Spec-modelled `fileutils` helpers (not under `src/`) -/

/-- Modelled from the spec: `fileutils.ensure_file_ext` is not among the
provided sources; the spec says the probe path is computed as
`basepath + extension` with the extension "only appending if not already
present", and the repository tests agree with this reading. -/
def ensure_file_ext (fname ext : String) : String :=
  if endsWithS fname ext then fname else fname ++ ext

/-- Modelled from the spec: `fileutils.convpath` is not among the provided
sources; the spec only says a candidate path is normalized to an absolute
form, so candidate paths are taken to be already in normal form and the
normalization is the identity. -/
def convpath (p : String) : String := p

/-! ## Filesystem model -/

/-- A finite read-only filesystem: the set of existing regular files and
the existing directories together with their entry names. -/
structure FileSys where
  files : List String
  dirs : List (String × List String)
deriving Repr, DecidableEq

/-- `os.path.isfile`. -/
def isfile (fs : FileSys) (p : String) : Bool := decide (p ∈ fs.files)

/-- `os.path.isdir`. -/
def isdir (fs : FileSys) (p : String) : Bool := (fs.dirs.lookup p).isSome

/-- `os.listdir` (bare entry names, unspecified order kept as listed). -/
def listdir (fs : FileSys) (p : String) : List String := (fs.dirs.lookup p).getD []

/-! ## Errors raised by the embedded code -/

/-- The exceptions the embedded `cmdlets.py` fragments can raise. -/
inductive CmdError where
  /-- `cmdlets.CmdException` with its message. -/
  | cmdException (msg : String)
  /-- a Python `AssertionError`. -/
  | assertionError
  /-- a Python `AttributeError` (attribute accessed before being set). -/
  | attributeError
  /-- a propagated config-file parse failure, tagged with the file path. -/
  | configError (path : String)
deriving Repr, DecidableEq

/-! ## `CfgFilesRegistry` -/

/-- State of `cmdlets.CfgFilesRegistry`.  `collected_paths` is `none` while
the Python attribute does not exist yet (it is created only inside
`collect_fpaths`); when present it is an insertion-ordered set. -/
structure CfgFilesRegistry where
  supported_cfg_extensions : List String
  visited : List (String × Option String)
  collected_paths : Option (List String)
deriving Repr, DecidableEq

/-- `CfgFilesRegistry.__init__`: records the extensions, starts with an
empty visit list and no `collected_paths` attribute. -/
def CfgFilesRegistry.init (exts : List String) : CfgFilesRegistry :=
  { supported_cfg_extensions := exts, visited := [], collected_paths := none }

/-- Add to an insertion-ordered set (`boltons` `IndexedSet.add`). -/
def isetAdd (s : List String) (x : String) : List String :=
  if x ∈ s then s else s ++ [x]

/-- `CfgFilesRegistry.visit_file(fpath, loaded)`: on a successful load it
dereferences `self.collected_paths`, which raises `AttributeError` when
`collect_fpaths` has never run; otherwise it appends the visit record. -/
def CfgFilesRegistry.visit_file (r : CfgFilesRegistry) (fpath : String)
    (loaded : Bool) : Except CmdError CfgFilesRegistry :=
  let p := osp_split fpath
  if loaded then
    match r.collected_paths with
    | none => .error .attributeError
    | some cp =>
        .ok { r with collected_paths := some (isetAdd cp fpath),
                     visited := r.visited ++ [(p.1, some p.2)] }
  else
    .ok { r with visited := r.visited ++ [(p.1, none)] }

/-- The running state of one `collect_fpaths` call: the visit list so far
and the (freshly reset) collected set the call works on. -/
structure CState where
  visited : List (String × Option String)
  collected : List String
deriving Repr, DecidableEq

/-- `visit_file` as invoked from inside `collect_fpaths`, where
`self.collected_paths` has just been assigned (so it never raises). -/
def cvisit (st : CState) (fpath : String) (loaded : Bool) : CState :=
  let p := osp_split fpath
  if loaded then
    { visited := st.visited ++ [(p.1, some p.2)], collected := isetAdd st.collected fpath }
  else
    { visited := st.visited ++ [(p.1, none)], collected := st.collected }

/-- One iteration of the first loop of `try_file_extensions`: probe
`basepath` with one extension, skipping paths already collected. -/
def tryOneExt (fs : FileSys) (basepath : String) (acc : CState × Bool)
    (ext : String) : CState × Bool :=
  let f := ensure_file_ext basepath ext
  if f ∈ acc.1.collected then acc
  else
    let loaded := isfile fs f
    (cvisit acc.1 f loaded, acc.2 || loaded)

/-- One entry of a fragments (`.d`) directory being visited: recorded as
loaded iff its name ends with a supported extension (no collected check). -/
def dEntryStep (cfg_exts : List String) (conf_d : String) (acc : CState × Bool)
    (f : String) : CState × Bool :=
  let loaded := endsWithAny f cfg_exts
  (cvisit acc.1 (pathJoin conf_d f) loaded, acc.2 || loaded)

/-- One iteration of the `('',) + cfg_exts` loop of `try_file_extensions`:
when `basepath` ends with `ext`, derive the fragments directory and visit
its (sorted) entries if it exists. -/
def dExtStep (fs : FileSys) (cfg_exts : List String) (basepath : String)
    (acc : CState × Bool) (ext : String) : CState × Bool :=
  if endsWithS basepath ext then
    let conf_d := ensure_file_ext (pyRstrip basepath ext) ".d"
    if isdir fs conf_d then
      (sortStrings (listdir fs conf_d)).foldl (dEntryStep cfg_exts conf_d) acc
    else acc
  else acc

/-- The extension-probe phase of `try_file_extensions` (its first loop). -/
def extPhase (fs : FileSys) (cfg_exts : List String) (basepath : String)
    (st : CState) : CState × Bool :=
  cfg_exts.foldl (tryOneExt fs basepath) (st, false)

/-- The fragments-directory phase of `try_file_extensions` (its second
loop, over the empty extension followed by the supported ones). -/
def dPhase (fs : FileSys) (cfg_exts : List String) (basepath : String)
    (acc : CState × Bool) : CState × Bool :=
  ("" :: cfg_exts).foldl (dExtStep fs cfg_exts basepath) acc

/-- `try_file_extensions(basepath)` from `collect_fpaths`: the extension
probes followed by the fragments-directory sweep; returns the updated state
and the `loaded_any` flag. -/
def try_file_extensions (fs : FileSys) (cfg_exts : List String)
    (basepath : String) (st : CState) : CState × Bool :=
  dPhase fs cfg_exts basepath (extPhase fs cfg_exts basepath st)

/-- `_derive_config_fpaths(path)`: probe the normalized candidate and, when
nothing was loaded, retry with the candidate extension split off. -/
def _derive_config_fpaths (fs : FileSys) (cfg_exts : List String)
    (st : CState) (path : String) : CState :=
  let p := convpath path
  let r := try_file_extensions fs cfg_exts p st
  if r.2 then r.1 else (try_file_extensions fs cfg_exts (splitext p).1 r.1).1

/-- `CfgFilesRegistry.collect_fpaths(path_list)`: reset `collected_paths`
to a fresh set, run `_derive_config_fpaths` over the candidates and return
the updated registry together with the collected list. -/
def CfgFilesRegistry.collect_fpaths (fs : FileSys) (r : CfgFilesRegistry)
    (path_list : List String) : CfgFilesRegistry × List String :=
  let st0 : CState := { visited := r.visited, collected := [] }
  let st := path_list.foldl (_derive_config_fpaths fs r.supported_cfg_extensions) st0
  ({ r with visited := st.visited, collected_paths := some st.collected }, st.collected)

/-- One step of the `_consolidate` loop: close the previous group when the
folder changes, then append the filename when it is truthy. -/
def consStep (acc : List (String × List String) × Option (String × List String))
    (bf : String × Option String) :
    List (String × List String) × Option (String × List String) :=
  let closed :=
    match acc.2 with
    | none => (acc.1, (bf.1, ([] : List String)))
    | some pv => if pv.1 ≠ bf.1 then (acc.1 ++ [pv], (bf.1, [])) else (acc.1, pv)
  match bf.2 with
  | some s =>
      if s ≠ "" then (closed.1, some (closed.2.1, closed.2.2 ++ [s]))
      else (closed.1, some closed.2)
  | none => (closed.1, some closed.2)

/-- Flush the pending group at the end of the `_consolidate` loop. -/
def consFinish (acc : List (String × List String) × Option (String × List String)) :
    List (String × List String) :=
  match acc.2 with
  | some pv => acc.1 ++ [pv]
  | none => acc.1

/-- `CfgFilesRegistry._consolidate(visited_tuples)`. -/
def _consolidate (visited : List (String × Option String)) :
    List (String × List String) :=
  consFinish (visited.foldl consStep ([], none))

/-- `CfgFilesRegistry.config_tuples` (property). -/
def CfgFilesRegistry.config_tuples (r : CfgFilesRegistry) :
    List (String × List String) :=
  _consolidate r.visited

/-- The consolidated view as the spec describes it: the *reverse* of the
discovery-order fold ("exposed in descending priority by the reverse of
this fold").  Kept distinct from `config_tuples` for comparison. -/
def config_tuples_spec (r : CfgFilesRegistry) : List (String × List String) :=
  (_consolidate r.visited).reverse

/-! ## Spec-side characterizations of the discovery loops -/

/-- The visit record one fragments-directory entry produces: the folder is
the fragments directory and the name is kept iff the entry ends with a
supported extension (then it counts as loaded). -/
def fragmentRecord (cfg_exts : List String) (conf_d f : String) :
    String × Option String :=
  let p := osp_split (pathJoin conf_d f)
  if endsWithAny f cfg_exts then (p.1, some p.2) else (p.1, none)

/-- The fragment records contributed by the extensions in `extl` that
`basepath` ends with: each derives its own fragments directory and, when
that directory exists, contributes one record per sorted entry. -/
def fragmentRecordsSpecOn (fs : FileSys) (cfg_exts extl : List String)
    (basepath : String) : List (String × Option String) :=
  ((extl.filter (fun ext => endsWithS basepath ext)).map (fun ext =>
    let conf_d := ensure_file_ext (pyRstrip basepath ext) ".d"
    if isdir fs conf_d then
      (sortStrings (listdir fs conf_d)).map (fragmentRecord cfg_exts conf_d)
    else [])).flatten

/-- All fragment records of one candidate: the loop runs over the empty
extension (which always matches) followed by the supported extensions. -/
def fragmentRecordsSpec (fs : FileSys) (cfg_exts : List String)
    (basepath : String) : List (String × Option String) :=
  fragmentRecordsSpecOn fs cfg_exts ("" :: cfg_exts) basepath

/-- The single fragments directory the claim describes: strip the
candidate's existing extension when it ends with a supported one or has
none, and append `.d`. -/
def fragmentsDirClaim (cfg_exts : List String) (p : String) : Option String :=
  if endsWithAny p cfg_exts then some ((splitext p).1 ++ ".d")
  else if (splitext p).2 = "" then some (p ++ ".d")
  else none

/-- Whether the first pass over a candidate loads anything, characterized
statically: some extension probe targets a not-yet-collected path that is a
file, or some fragments-directory entry is recorded as loaded. -/
def first_pass_loaded_any (fs : FileSys) (cfg_exts : List String)
    (collected0 : List String) (p : String) : Bool :=
  (cfg_exts.any fun ext =>
    !decide (ensure_file_ext p ext ∈ collected0) && isfile fs (ensure_file_ext p ext))
  || (fragmentRecordsSpec fs cfg_exts p).any (fun r => r.2.isSome)

/-- The first-pass-found-nothing condition exactly as the claim words it:
no extension-based file existed on the filesystem and no
fragments-directory entry was recorded as loaded. -/
def firstPassFoundNothingClaim (fs : FileSys) (cfg_exts : List String)
    (p : String) : Bool :=
  cfg_exts.all (fun ext => !isfile fs (ensure_file_ext p ext))
  && (fragmentRecordsSpec fs cfg_exts p).all (fun r => r.2.isNone)

/-! ## Python dict operations (flag/alias maps, config override trees) -/

/-- Python `d[k] = v` on an insertion-ordered association list: replace the
value of an existing key in place, else append. -/
def pyDictSet {V : Type} : List (String × V) → String → V → List (String × V)
  | [], k, v => [(k, v)]
  | (k1, v1) :: d, k, v =>
      if k1 = k then (k1, v) :: d else (k1, v1) :: pyDictSet d k v

/-- Python `d.update(other)`: set every entry of `other` into `d`. -/
def pyDictUpdate {V : Type} (d other : List (String × V)) : List (String × V) :=
  other.foldl (fun acc kv => pyDictSet acc kv.1 kv.2) d

/-- The flag (resp. alias) merge of `Cmd._inherit_parent_cmd`: when the
parent map is truthy, the child map becomes a copy of the parent updated
with the child's own entries (or the parent map itself when the child has
none); an empty parent map leaves the child map untouched. -/
def inheritMap {V : Type} (parentM childM : List (String × V)) :
    List (String × V) :=
  if parentM.isEmpty then childM
  else if childM.isEmpty then parentM
  else pyDictUpdate parentM childM

/-! ## Command chains (`Cmd.initialize`, `chain_cmds`) -/

/-- The instantiated command chain produced by argv dispatch: each node
knows whether `read_config_files` ran during its `initialize`, and a
`node` is one on which the parser attached a sub-command. -/
inductive App where
  | leaf (readCfg : Bool)
  | node (readCfg : Bool) (child : App)
deriving Repr, DecidableEq

/-- The static sub-command declarations of a command class. -/
inductive CmdCls where
  | mk (subcommands : List (String × CmdCls))

/-- Sub-command lookup by name. -/
def CmdCls.findSub : List (String × CmdCls) → String → Option CmdCls
  | [], _ => none
  | (n, c) :: rest, tok => if n = tok then some c else CmdCls.findSub rest tok

/-- `Cmd.initialize(argv)` under argv dispatch.  Modelled from the spec for
the parsing half: the external arg-parser (the vendored traitlets
`parse_command_line`, not under `src/`) attaches a child iff the first
remaining token matches a declared sub-command and recurses into it with
the remaining argv; option tokens are irrelevant here and elided.  The
`cmdlets.py` half is literal: a dispatching node returns before
`read_config_files`, a terminal node runs it. -/
def Cmd.initialise : CmdCls → List String → App
  | _, [] => .leaf true
  | .mk subs, tok :: rest =>
      match CmdCls.findSub subs tok with
      | some child => .node false (Cmd.initialise child rest)
      | none => .leaf true

/-- Every dispatching node of the chain left config files unread. -/
def App.dispatchersSkipConfigs : App → Bool
  | .leaf _ => true
  | .node r c => !r && c.dispatchersSkipConfigs

/-- One already-built node of a programmatic (`chain_cmds`) chain. -/
structure ChainNode where
  hasSubapp : Bool
  readCfg : Bool
deriving Repr, DecidableEq

/-- `initialize(argv)` as invoked by `chain_cmds`, whose argv names no
sub-command: the parser attaches nothing, so the node is dispatching iff a
sub-app is already attached, and otherwise reads the config files. -/
def chainNodeInitialise (n : ChainNode) : ChainNode :=
  if n.hasSubapp then n else { n with readCfg := true }

/-- `app.subapp = ... ` in the `chain_cmds` loop: the most recently built
node (the list's last) gets the fresh child attached. -/
def setLastSubapp : List ChainNode → List ChainNode
  | [] => []
  | [n] => [{ n with hasSubapp := true }]
  | n :: ns => n :: setLastSubapp ns

/-- One iteration of the `chain_cmds` loop: the first class builds the
orphan root, any later class is attached to the previous node as its
sub-app; either way the freshly built node is initialised immediately,
before any child is ever attached to it. -/
def chainStep (acc : List ChainNode) (_u : Unit) : List ChainNode :=
  match acc with
  | [] => [chainNodeInitialise { hasSubapp := false, readCfg := false }]
  | _ => setLastSubapp acc ++
      [chainNodeInitialise { hasSubapp := false, readCfg := false }]

/-- `chain_cmds(app_classes)` over `n` command classes: raises on an empty
class list, else folds the build-attach-initialise loop. -/
def chain_cmds (n : Nat) : Except CmdError (List ChainNode) :=
  if n = 0 then .error (.cmdException "No cmds to chained passed in!")
  else .ok ((List.replicate n ()).foldl chainStep [])

/-! ## Config loading and merging (`read_config_files`, `initialize`) -/

/-- A structured override tree, flattened to dotted keys. -/
abbrev Config := List (String × String)

/-- `traitlets.config.Config.merge`: entries of the other config overwrite
the accumulated ones (modelled from the spec: the vendored traitlets is
not under `src/`; the spec says higher-priority values overwrite earlier
ones key by key). -/
def cfgMerge (c other : Config) : Config := pyDictUpdate c other

/-- What loading one config file can yield: the file vanished, its content
failed to parse, or a parsed override tree. -/
inductive LoadResult where
  | vanished
  | parseError
  | ok (cfg : Config)
deriving Repr, DecidableEq

/-- Whether `_read_config_from_json_or_py`'s loader table handles this
extension (the source asserts this). -/
def loadersHandle (ext : String) : Bool :=
  decide (asciiLower ext = ".py") || decide (asciiLower ext = ".json")

/-- `Cmd._read_config_from_json_or_py(cfpath)`: assert a loader exists for
the extension; a vanished file yields no config silently; a parse failure
propagates iff `raise_config_file_errors`, else is logged and yields no
config; success yields the parsed config. -/
def _read_config_from_json_or_py (strict : Bool) (env : String → LoadResult)
    (cfpath : String) : Except CmdError (Option Config) :=
  let ext := (splitext cfpath).2
  if loadersHandle ext then
    match env cfpath with
    | .vanished => .ok none
    | .parseError => if strict then .error (.configError cfpath) else .ok none
    | .ok c => .ok (some c)
  else .error .assertionError

/-- `Cmd.read_config_files()`: walk the collected paths from lowest to
highest priority (the collected list is descending, so it is reversed) and
merge each truthy loaded config over the accumulated one.  Collision
detection only logs and is elided. -/
def read_config_files (strict : Bool) (env : String → LoadResult)
    (config_paths : List String) : Except CmdError Config :=
  config_paths.reverse.foldlM
    (fun new_config cfpath => do
      let cfg? ← _read_config_from_json_or_py strict env cfpath
      match cfg? with
      | some c => if c.isEmpty then pure new_config else pure (cfgMerge new_config c)
      | none => pure new_config)
    []

/-- The config-resolution tail of `Cmd.initialize` on a terminal node:
read the file configs, then merge the CLI-sourced config on top. -/
def initialise_config (strict : Bool) (env : String → LoadResult)
    (config_paths : List String) (cli_config : Config) :
    Except CmdError Config := do
  let static ← read_config_files strict env config_paths
  pure (cfgMerge static cli_config)

/-! ## `write_default_config` -/

/-- A writable filesystem: file contents by path, plus existing dirs. -/
structure WFS where
  files : List (String × String)
  dirs : List String
deriving Repr, DecidableEq

/-- `os.path.isfile` on the writable filesystem. -/
def wIsfile (fs : WFS) (p : String) : Bool := (fs.files.lookup p).isSome

/-- `os.path.isdir` on the writable filesystem. -/
def wIsdir (fs : WFS) (p : String) : Bool := decide (p ∈ fs.dirs)

/-- `open(p, mode='wt').write(content)`: create or overwrite. -/
def wWrite (fs : WFS) (p content : String) : WFS :=
  { fs with files := pyDictSet fs.files p content }

/-- Delete a file entry. -/
def wRemove (fs : WFS) (p : String) : WFS :=
  { fs with files := fs.files.filter (fun kv => decide (kv.1 ≠ p)) }

/-- `shutil.move(src, dst)` for the existing-file case. -/
def shutilMove (fs : WFS) (src dst : String) : WFS :=
  match fs.files.lookup src with
  | some content => wWrite (wRemove fs src) dst content
  | none => fs

/-- Modelled from the spec: `fileutils.ensure_dir_exists` is not among the
provided sources and the spec does not describe it beyond the write
happening at the target path; it creates the directory, modelled as adding
it to the directory set without touching any file. -/
def ensure_dir_exists (fs : WFS) (d : String) : WFS :=
  { fs with dirs := if d ∈ fs.dirs then fs.dirs else fs.dirs ++ [d] }

/-- `Cmd.write_default_config(config_file, force)`: resolve the target
(explicit path with directories getting the config basename appended, else
the first config path, else an assertion failure), force the `.py`
extension, and refuse to overwrite without `force`; with `force` the old
file is first renamed to a timestamped backup, then the freshly generated
text is written at the original path. -/
def write_default_config (fs : WFS) (config_paths : List String)
    (config_basename now config_text : String) (config_file? : Option String)
    (force : Bool) : Except CmdError WFS :=
  let step1 : Except CmdError String :=
    match config_file? with
    | some cf =>
        let cf := convpath cf
        .ok (if wIsdir fs cf then pathJoin cf config_basename else cf)
    | none =>
        match config_paths with
        | cf :: _ => .ok cf
        | [] => .error .assertionError
  match step1 with
  | .error e => .error e
  | .ok cf0 =>
      let config_file := ensure_file_ext cf0 ".py"
      let is_overwrite := wIsfile fs config_file
      if is_overwrite && !force then
        .error (.cmdException ("Config-file " ++ config_file ++
          " already exists! Specify --force to overwrite."))
      else
        let fs1 :=
          if is_overwrite then
            shutilMove fs config_file
              ((splitext config_file).1 ++ "-" ++ now ++ ".py")
          else fs
        let fs2 := ensure_dir_exists fs1 (osp_split config_file).1
        .ok (wWrite fs2 config_file config_text)

/-! ## Lemmas about `_consolidate` -/

theorem consStep_snd_isSome (acc : List (String × List String) × Option (String × List String))
    (bf : String × Option String) : (consStep acc bf).2.isSome := by
  rcases acc with ⟨c, pv⟩
  rcases bf with ⟨b, f⟩
  cases pv <;> cases f <;> simp [consStep] <;> split <;> simp

theorem consStep_acc (c : List (String × List String)) (pv : String × List String)
    (bf : String × Option String) :
    consStep (c, some pv) bf
      = (c ++ (consStep ([], some pv) bf).1, (consStep ([], some pv) bf).2) := by
  rcases bf with ⟨b, f⟩
  by_cases h : pv.1 ≠ b <;> cases f with
  | _ => simp [consStep, h] <;> split <;> simp

theorem consFinish_foldl_append (l : List (String × Option String)) :
    ∀ (c : List (String × List String)) (pv : String × List String),
    consFinish (l.foldl consStep (c, some pv))
      = c ++ consFinish (l.foldl consStep ([], some pv)) := by
  induction l with
  | nil => intro c pv; simp [consFinish]
  | cons bf l ih =>
      intro c pv
      simp only [List.foldl_cons]
      obtain ⟨pv', hpv'⟩ := Option.isSome_iff_exists.mp (consStep_snd_isSome ([], some pv) bf)
      have hx : consStep ([], some pv) bf
          = ((consStep ([], some pv) bf).1, some pv') := by rw [← hpv']
      rw [consStep_acc, hpv', ih (c ++ (consStep ([], some pv) bf).1) pv',
        hx, ih (consStep ([], some pv) bf).1 pv', List.append_assoc]

theorem consolidate_head_aux (l : List (String × Option String)) :
    ∀ (b : String) (fl : List String),
    (consFinish (l.foldl consStep ([], some (b, fl)))).head?.map Prod.fst = some b := by
  induction l with
  | nil => intro b fl; simp [consFinish]
  | cons bf l ih =>
      intro b fl
      rcases bf with ⟨b', f⟩
      simp only [List.foldl_cons]
      by_cases h : b = b'
      · subst h
        cases f with
        | none => simpa [consStep] using ih b fl
        | some s =>
            by_cases hs : s = ""
            · simpa [consStep, hs] using ih b fl
            · simpa [consStep, hs] using ih b (fl ++ [s])
      · cases f with
        | none =>
            have hstep : consStep ([], some (b, fl)) (b', none)
                = ([(b, fl)], some (b', [])) := by simp [consStep, h]
            rw [hstep, consFinish_foldl_append l [(b, fl)] (b', [])]
            simp
        | some s =>
            by_cases hs : s = ""
            · have hstep : consStep ([], some (b, fl)) (b', some s)
                  = ([(b, fl)], some (b', [])) := by simp [consStep, h, hs]
              rw [hstep, consFinish_foldl_append l [(b, fl)] (b', [])]
              simp
            · have hstep : consStep ([], some (b, fl)) (b', some s)
                  = ([(b, fl)], some (b', [s])) := by simp [consStep, h, hs]
              rw [hstep, consFinish_foldl_append l [(b, fl)] (b', [s])]
              simp

/-! ## Claim theorems -/

/-- C1 counterexample: on a registry that visited two folders, the public
`config_tuples` view is *not* the reverse of the discovery-order fold. -/
theorem config_tuples_not_reversed_cex :
    CfgFilesRegistry.config_tuples
        ⟨[".json", ".py"], [("a", some "F1"), ("b", some "F2")], none⟩
      ≠ config_tuples_spec
        ⟨[".json", ".py"], [("a", some "F1"), ("b", some "F2")], none⟩ := by
  decide

/-- C1 (amended): `config_tuples` exposes the consolidated groups in
discovery (ascending) order — the fold itself, not its reverse — so for
every non-empty visit list the first group of the public view belongs to
the *first-probed* search root. -/
theorem config_tuples_first_group_first_probed (exts : List String)
    (cp : Option (List String)) (b : String) (f : Option String)
    (rest : List (String × Option String)) :
    ((CfgFilesRegistry.config_tuples ⟨exts, (b, f) :: rest, cp⟩).head?).map Prod.fst
      = some b := by
  show (consFinish (((b, f) :: rest).foldl consStep ([], none))).head?.map Prod.fst = some b
  simp only [List.foldl_cons]
  cases f with
  | none => simpa [consStep] using consolidate_head_aux rest b []
  | some s =>
      by_cases hs : s = ""
      · simpa [consStep, hs] using consolidate_head_aux rest b []
      · simpa [consStep, hs] using consolidate_head_aux rest b [s]

/-- C10: on a freshly constructed registry, `visit_file` with
`loaded=true` raises `AttributeError` (the collected-paths attribute is
created only by `collect_fpaths`), while `loaded=false` succeeds and
appends a `(folder, none)` record; after any `collect_fpaths` call,
`visit_file` with `loaded=true` succeeds. -/
theorem visit_file_fresh_registry (exts : List String) (fpath : String) :
    CfgFilesRegistry.visit_file (CfgFilesRegistry.init exts) fpath true
        = .error .attributeError
    ∧ CfgFilesRegistry.visit_file (CfgFilesRegistry.init exts) fpath false
        = .ok ⟨exts, [((osp_split fpath).1, none)], none⟩
    ∧ ∀ (fs : FileSys) (path_list : List String), ∃ r',
        CfgFilesRegistry.visit_file
          (CfgFilesRegistry.collect_fpaths fs (CfgFilesRegistry.init exts) path_list).1
          fpath true = .ok r' := by
  refine ⟨rfl, by simp [CfgFilesRegistry.visit_file, CfgFilesRegistry.init], ?_⟩
  intro fs pl
  exact ⟨_, rfl⟩

/-! ## Lemmas about Python dict operations -/

theorem lookup_pyDictSet_self {V : Type} (d : List (String × V)) (k : String) (v : V) :
    (pyDictSet d k v).lookup k = some v := by
  induction d with
  | nil => simp [pyDictSet, List.lookup]
  | cons kv d ih =>
      rcases kv with ⟨k1, v1⟩
      by_cases h : k1 = k
      · subst h; simp [pyDictSet, List.lookup]
      · have hb : (k == k1) = false := by
          simp only [beq_eq_false_iff_ne]; exact fun e => h e.symm
        simp [pyDictSet, h, List.lookup, hb, ih]

theorem lookup_pyDictSet_ne {V : Type} (d : List (String × V)) (k : String) (v : V)
    (k' : String) (h : k' ≠ k) : (pyDictSet d k v).lookup k' = d.lookup k' := by
  induction d with
  | nil =>
      have hb : (k' == k) = false := by simp only [beq_eq_false_iff_ne]; exact h
      simp [pyDictSet, List.lookup, hb]
  | cons kv d ih =>
      rcases kv with ⟨k1, v1⟩
      by_cases h1 : k1 = k
      · subst h1
        have hb : (k' == k1) = false := by simp only [beq_eq_false_iff_ne]; exact h
        simp [pyDictSet, List.lookup, hb]
      · simp only [pyDictSet, if_neg h1]
        by_cases h2 : k' = k1
        · subst h2; simp [List.lookup]
        · have hb : (k' == k1) = false := by simp only [beq_eq_false_iff_ne]; exact h2
          simp [List.lookup, hb, ih]

theorem lookup_none_of_not_mem_keys {V : Type} (l : List (String × V)) (k : String)
    (h : k ∉ l.map Prod.fst) : l.lookup k = none := by
  induction l with
  | nil => simp [List.lookup]
  | cons kv l ih =>
      rcases kv with ⟨k1, v1⟩
      simp only [List.map_cons, List.mem_cons] at h
      push_neg at h
      have hb : (k == k1) = false := by simp only [beq_eq_false_iff_ne]; exact h.1
      simp [List.lookup, hb, ih h.2]

theorem lookup_pyDictUpdate_none {V : Type} (o d : List (String × V)) (k : String)
    (h : o.lookup k = none) : (pyDictUpdate d o).lookup k = d.lookup k := by
  induction o generalizing d with
  | nil => simp [pyDictUpdate]
  | cons kv o ih =>
      rcases kv with ⟨k1, v1⟩
      have hcase : ¬ (k = k1) ∧ o.lookup k = none := by
        by_cases hk : k = k1
        · subst hk; simp [List.lookup] at h
        · refine ⟨hk, ?_⟩
          have hb : (k == k1) = false := by simp only [beq_eq_false_iff_ne]; exact hk
          simpa [List.lookup, hb] using h
      have hstep : pyDictUpdate d ((k1, v1) :: o) = pyDictUpdate (pyDictSet d k1 v1) o := rfl
      rw [hstep, ih _ hcase.2, lookup_pyDictSet_ne _ _ _ _ hcase.1]

theorem lookup_pyDictUpdate_some {V : Type} (o d : List (String × V)) (k : String) (v : V)
    (hnd : (o.map Prod.fst).Nodup) (h : o.lookup k = some v) :
    (pyDictUpdate d o).lookup k = some v := by
  induction o generalizing d with
  | nil => simp [List.lookup] at h
  | cons kv o ih =>
      rcases kv with ⟨k1, v1⟩
      simp only [List.map_cons, List.nodup_cons] at hnd
      have hstep : pyDictUpdate d ((k1, v1) :: o) = pyDictUpdate (pyDictSet d k1 v1) o := rfl
      by_cases hk : k = k1
      · subst hk
        have hv : v1 = v := by simpa [List.lookup] using h
        have ho : o.lookup k = none := lookup_none_of_not_mem_keys _ _ hnd.1
        rw [hstep, lookup_pyDictUpdate_none _ _ _ ho, lookup_pyDictSet_self, hv]
      · have hb : (k == k1) = false := by simp only [beq_eq_false_iff_ne]; exact hk
        have ho : o.lookup k = some v := by simpa [List.lookup, hb] using h
        rw [hstep]
        exact ih _ hnd.2 ho

/-- C7: when the parent map is non-empty, a child with no own entries ends
up with exactly the parent's map; a child with own entries keeps its own
value for every key it defined and inherits the parent's value for every
other key. -/
theorem inherit_parent_maps_child_wins (V : Type) (parentM childM : List (String × V))
    (hp : parentM ≠ []) (hnd : (childM.map Prod.fst).Nodup) :
    (childM = [] → inheritMap parentM childM = parentM)
    ∧ (∀ k v, childM.lookup k = some v → (inheritMap parentM childM).lookup k = some v)
    ∧ (∀ k, childM.lookup k = none →
        (inheritMap parentM childM).lookup k = parentM.lookup k) := by
  have hpe : parentM.isEmpty = false := by
    cases parentM with
    | nil => exact absurd rfl hp
    | cons a l => rfl
  refine ⟨?_, ?_, ?_⟩
  · intro h; subst h; simp [inheritMap, hpe]
  · intro k v h
    have hce : childM.isEmpty = false := by
      cases childM with
      | nil => simp [List.lookup] at h
      | cons a l => rfl
    simp only [inheritMap, hpe, hce, Bool.false_eq_true, if_false]
    exact lookup_pyDictUpdate_some _ _ _ _ hnd h
  · intro k h
    cases hc : childM with
    | nil => simp [inheritMap, hpe]
    | cons a l =>
        have hce : childM.isEmpty = false := by rw [hc]; rfl
        rw [← hc]
        simp only [inheritMap, hpe, hce, Bool.false_eq_true, if_false]
        exact lookup_pyDictUpdate_none _ _ _ h

/-- Witness for C7 at a concrete parent and child map. -/
theorem inherit_parent_maps_child_wins_witness :
    (inheritMap [("a", 1), ("b", 2)] ([("b", 9)] : List (String × Nat))).lookup "b" = some 9
    ∧ (inheritMap [("a", 1), ("b", 2)] ([("b", 9)] : List (String × Nat))).lookup "a"
        = List.lookup "a" [("a", 1), ("b", 2)] :=
  ⟨(inherit_parent_maps_child_wins Nat [("a", 1), ("b", 2)] [("b", 9)]
      (by decide) (by decide)).2.1 "b" 9 (by decide),
   (inherit_parent_maps_child_wins Nat [("a", 1), ("b", 2)] [("b", 9)]
      (by decide) (by decide)).2.2 "a" (by decide)⟩

/-! ## Command-chain lemmas -/

theorem setLastSubapp_mem (l : List ChainNode) (n : ChainNode)
    (h : n ∈ setLastSubapp l) : ∃ m ∈ l, n.readCfg = m.readCfg := by
  induction l with
  | nil => simp [setLastSubapp] at h
  | cons a l ih =>
      cases l with
      | nil =>
          simp [setLastSubapp] at h
          exact ⟨a, by simp, by simp [h]⟩
      | cons b l' =>
          rw [show setLastSubapp (a :: b :: l') = a :: setLastSubapp (b :: l') from rfl,
            List.mem_cons] at h
          rcases h with h | h
          · exact ⟨a, by simp, by simp [h]⟩
          · obtain ⟨m, hm, he⟩ := ih h
            exact ⟨m, by simp [hm], he⟩

/-- C2 counterexample: a two-class `chain_cmds` chain attaches the child
*after* the root's `initialize` has run, so the root node both carries an
attached sub-app and has read the config files — against the claim that a
node with an attached child never reads them. -/
theorem chain_cmds_nonterminal_reads_cex :
    chain_cmds 2 = .ok [⟨true, true⟩, ⟨false, true⟩]
    ∧ ¬ (∀ ns, chain_cmds 2 = .ok ns →
          ∀ n ∈ ns, n.hasSubapp = true → n.readCfg = false) := by
  refine ⟨rfl, ?_⟩
  intro h
  have h2 := h [⟨true, true⟩, ⟨false, true⟩] rfl ⟨true, true⟩ (by simp) rfl
  simp at h2

/-- C2 (amended): under argv dispatch every node on which the parser
attached a child returns from `initialize` before reading config files
(only the terminal node reads them); under `chain_cmds` each node is
initialised before its child is attached, so every node of the chain reads
the config files. -/
theorem only_terminal_reads_amended :
    (∀ (cls : CmdCls) (argv : List String),
       (Cmd.initialise cls argv).dispatchersSkipConfigs = true)
    ∧ (∀ (k : Nat) (ns : List ChainNode), chain_cmds k = .ok ns →
       ∀ n ∈ ns, n.readCfg = true) := by
  constructor
  · intro cls argv
    induction argv generalizing cls with
    | nil => cases cls; rfl
    | cons tok rest ih =>
        cases cls with
        | mk subs =>
            rw [show Cmd.initialise (.mk subs) (tok :: rest)
                = (match CmdCls.findSub subs tok with
                   | some child => .node false (Cmd.initialise child rest)
                   | none => .leaf true) from rfl]
            cases h : CmdCls.findSub subs tok with
            | none => rfl
            | some child =>
                simp only [App.dispatchersSkipConfigs, Bool.not_false, Bool.true_and]
                exact ih child
  · have inv : ∀ (l : List Unit) (acc : List ChainNode),
        (∀ n ∈ acc, n.readCfg = true) →
        ∀ n ∈ l.foldl chainStep acc, n.readCfg = true := by
      intro l
      induction l with
      | nil => intro acc h; simpa using h
      | cons u l ih =>
          intro acc h
          simp only [List.foldl_cons]
          apply ih
          intro n hn
          cases acc with
          | nil =>
              simp [chainStep, chainNodeInitialise] at hn
              rw [hn]
          | cons a as =>
              rw [show chainStep (a :: as) u
                  = setLastSubapp (a :: as) ++
                    [chainNodeInitialise { hasSubapp := false, readCfg := false }] from rfl,
                List.mem_append] at hn
              rcases hn with hn | hn
              · obtain ⟨m, hm, he⟩ := setLastSubapp_mem _ _ hn
                rw [he]; exact h m hm
              · simp [chainNodeInitialise] at hn
                rw [hn]
    intro k ns h
    cases k with
    | zero => simp [chain_cmds] at h
    | succ k =>
        have hne : ¬ (k + 1 = 0) := Nat.succ_ne_zero k
        rw [chain_cmds, if_neg hne] at h
        have hns : (List.replicate (k + 1) ()).foldl chainStep [] = ns :=
          by injection h
        rw [← hns]
        exact inv _ [] (by simp)

/-- Witness for C2 (amended) at a concrete class tree and the two-class
programmatic chain. -/
theorem only_terminal_reads_amended_witness :
    (Cmd.initialise (CmdCls.mk [("sub", CmdCls.mk [])]) ["sub"]).dispatchersSkipConfigs = true
    ∧ ∀ n ∈ ([⟨true, true⟩, ⟨false, true⟩] : List ChainNode), n.readCfg = true :=
  ⟨only_terminal_reads_amended.1 (CmdCls.mk [("sub", CmdCls.mk [])]) ["sub"],
   only_terminal_reads_amended.2 2 [⟨true, true⟩, ⟨false, true⟩] rfl⟩

/-! ## Config loading/merging theorems -/

theorem read_one_ok (strict : Bool) (env : String → LoadResult) (p : String)
    (c : Config) (hp : env p = .ok c)
    (he : loadersHandle (splitext p).2 = true) :
    _read_config_from_json_or_py strict env p = .ok (some c) := by
  simp [_read_config_from_json_or_py, he, hp]

/-- C9: loading one discovered config file returns no config and raises
nothing when the file vanished; on a parse failure it raises exactly in
strict mode and otherwise yields no config; on success it yields the
parsed config. -/
theorem read_config_file_outcomes (strict : Bool) (env : String → LoadResult)
    (cfpath : String) (hext : loadersHandle (splitext cfpath).2 = true) :
    (env cfpath = .vanished →
        _read_config_from_json_or_py strict env cfpath = .ok none)
    ∧ (env cfpath = .parseError →
        _read_config_from_json_or_py strict env cfpath
          = if strict then .error (.configError cfpath) else .ok none)
    ∧ (∀ c, env cfpath = .ok c →
        _read_config_from_json_or_py strict env cfpath = .ok (some c)) := by
  refine ⟨?_, ?_, fun c hc => read_one_ok strict env cfpath c hc hext⟩
  · intro h; simp [_read_config_from_json_or_py, hext, h]
  · intro h; simp [_read_config_from_json_or_py, hext, h]

/-- Witness for C9 on a vanished `.json` file. -/
theorem read_config_file_outcomes_witness :
    _read_config_from_json_or_py true (fun _ => .vanished) "x.json" = .ok none :=
  (read_config_file_outcomes true (fun _ => .vanished) "x.json" (by decide)).1 rfl

/-- C3: with three files of increasing priority A < B < C all setting the
same dotted key (the collected order is descending, so it is `[C, B, A]`),
the resolved config after `initialize` holds C's value, and a CLI-sourced
override for the key wins over all of them. -/
theorem merge_priority_highest_file_then_cli
    (strict : Bool) (env : String → LoadResult) (k vA vB vC : String)
    (pA pB pC : String) (cliv : Option String)
    (hA : env pA = .ok [(k, vA)]) (hB : env pB = .ok [(k, vB)])
    (hC : env pC = .ok [(k, vC)])
    (heA : loadersHandle (splitext pA).2 = true)
    (heB : loadersHandle (splitext pB).2 = true)
    (heC : loadersHandle (splitext pC).2 = true) :
    ∃ cfg, initialise_config strict env [pC, pB, pA]
        (match cliv with | some w => [(k, w)] | none => []) = .ok cfg
      ∧ cfg.lookup k = some (cliv.getD vC) := by
  have hread : read_config_files strict env [pC, pB, pA] = .ok [(k, vC)] := by
    unfold read_config_files
    simp only [List.reverse_cons, List.reverse_nil, List.nil_append,
      List.cons_append, List.singleton_append, List.foldlM_cons, List.foldlM_nil,
      read_one_ok strict env pA [(k, vA)] hA heA,
      read_one_ok strict env pB [(k, vB)] hB heB,
      read_one_ok strict env pC [(k, vC)] hC heC]
    simp [show ∀ (α β : Type) (a : α) (f : α → Except CmdError β),
        (Except.ok a >>= f) = f a from fun _ _ _ _ => rfl,
      pure, Except.pure, cfgMerge, pyDictUpdate, pyDictSet]
  cases cliv with
  | none =>
      refine ⟨[(k, vC)], ?_, ?_⟩
      · unfold initialise_config
        rw [hread]
        simp [cfgMerge, pyDictUpdate]
      · simp [List.lookup]
  | some w =>
      refine ⟨[(k, w)], ?_, ?_⟩
      · unfold initialise_config
        rw [hread]
        simp [cfgMerge, pyDictUpdate, pyDictSet]
      · simp [List.lookup]

/-- Witness for C3 with three concrete `.json` files and a CLI override. -/
theorem merge_priority_highest_file_then_cli_witness :
    ∃ cfg, initialise_config true
        (fun p => if p = "C.json" then .ok [("X.value", "3")]
          else if p = "B.json" then .ok [("X.value", "2")]
          else .ok [("X.value", "1")])
        ["C.json", "B.json", "A.json"] [("X.value", "9")] = .ok cfg
      ∧ cfg.lookup "X.value" = some "9" :=
  merge_priority_highest_file_then_cli true
    (fun p => if p = "C.json" then .ok [("X.value", "3")]
      else if p = "B.json" then .ok [("X.value", "2")]
      else .ok [("X.value", "1")])
    "X.value" "1" "2" "3" "A.json" "B.json" "C.json" (some "9")
    (by decide) (by decide) (by decide) (by decide) (by decide) (by decide)

/-! ## `write_default_config` theorem -/

/-- C8: when the resolved target file already exists, `force=false` raises
the user-facing already-exists `CmdException` before any filesystem write;
`force=true` first renames the old file to a timestamp-suffixed backup and
then writes the freshly generated content at the original path. -/
theorem write_default_config_preexisting
    (fs : WFS) (config_paths : List String)
    (config_basename now config_text cfIn : String)
    (hdir : wIsdir fs (convpath cfIn) = false)
    (hfile : wIsfile fs (ensure_file_ext (convpath cfIn) ".py") = true)
    (hbk : (splitext (ensure_file_ext (convpath cfIn) ".py")).1 ++ "-" ++ now ++ ".py"
        ≠ ensure_file_ext (convpath cfIn) ".py") :
    write_default_config fs config_paths config_basename now config_text (some cfIn) false
      = .error (.cmdException ("Config-file " ++ ensure_file_ext (convpath cfIn) ".py"
          ++ " already exists! Specify --force to overwrite."))
    ∧ ∃ fs', write_default_config fs config_paths config_basename now config_text
          (some cfIn) true = .ok fs'
        ∧ fs'.files.lookup (ensure_file_ext (convpath cfIn) ".py") = some config_text
        ∧ fs'.files.lookup
            ((splitext (ensure_file_ext (convpath cfIn) ".py")).1 ++ "-" ++ now ++ ".py")
          = fs.files.lookup (ensure_file_ext (convpath cfIn) ".py") := by
  obtain ⟨c, hc⟩ := Option.isSome_iff_exists.mp hfile
  constructor
  · simp [write_default_config, hdir, hfile]
  · refine ⟨wWrite
        (ensure_dir_exists
          (shutilMove fs (ensure_file_ext (convpath cfIn) ".py")
            ((splitext (ensure_file_ext (convpath cfIn) ".py")).1 ++ "-" ++ now ++ ".py"))
          (osp_split (ensure_file_ext (convpath cfIn) ".py")).1)
        (ensure_file_ext (convpath cfIn) ".py") config_text, ?_, ?_, ?_⟩
    · simp [write_default_config, hdir, hfile]
    · simp only [wWrite, ensure_dir_exists]
      exact lookup_pyDictSet_self _ _ _
    · simp only [wWrite, ensure_dir_exists]
      rw [lookup_pyDictSet_ne _ _ _ _ hbk]
      show ((shutilMove fs _ _).files.lookup _) = _
      rw [shutilMove, hc]
      simp only [wWrite, wRemove]
      rw [lookup_pyDictSet_self]

/-- Witness for C8 on a one-file filesystem. -/
theorem write_default_config_preexisting_witness :
    write_default_config ⟨[("conf.py", "old")], []⟩ [] ".app" "20180101" "new"
        (some "conf") false
      = .error (.cmdException ("Config-file " ++ ensure_file_ext (convpath "conf") ".py"
          ++ " already exists! Specify --force to overwrite."))
    ∧ ∃ fs', write_default_config ⟨[("conf.py", "old")], []⟩ [] ".app" "20180101" "new"
          (some "conf") true = .ok fs'
        ∧ fs'.files.lookup (ensure_file_ext (convpath "conf") ".py") = some "new"
        ∧ fs'.files.lookup
            ((splitext (ensure_file_ext (convpath "conf") ".py")).1
              ++ "-" ++ "20180101" ++ ".py")
          = List.lookup (ensure_file_ext (convpath "conf") ".py") [("conf.py", "old")] :=
  write_default_config_preexisting ⟨[("conf.py", "old")], []⟩ [] ".app" "20180101" "new"
    "conf" (by decide) (by decide) (by decide)

/-! ## Discovery-loop theorems (fragments directories, retries, revisits) -/

/-- C4 counterexample: with `conf.json` on disk and a `conf.d` fragments
directory, probing the candidate list `[conf, conf]` through one registry
visits the already-collected fragment file `conf.d/a.json` a second time,
so the visit list carries a duplicate record for a collected path. -/
theorem collect_fpaths_duplicate_visit_cex :
    ("conf.d/a.json" ∈ (CfgFilesRegistry.collect_fpaths
        ⟨["conf.json"], [("conf.d", ["a.json"])]⟩
        (CfgFilesRegistry.init [".json", ".py"]) ["conf", "conf"]).2)
    ∧ ((CfgFilesRegistry.collect_fpaths
        ⟨["conf.json"], [("conf.d", ["a.json"])]⟩
        (CfgFilesRegistry.init [".json", ".py"]) ["conf", "conf"]).1.visited.count
        ("conf.d", some "a.json") = 2) := by
  decide

/-- C5 counterexample: for the candidate `conf.json` the code also probes
the un-stripped `conf.json.d` fragments directory (the empty extension
always matches), visiting its entry although the claim's single fragments
directory `conf.d` does not exist. -/
theorem fragments_dir_not_single_cex :
    (("conf.json.d", some "a.json") ∈
        (_derive_config_fpaths ⟨[], [("conf.json.d", ["a.json"])]⟩ [".json", ".py"]
          ⟨[], []⟩ "conf.json").visited)
    ∧ fragmentsDirClaim [".json", ".py"] "conf.json" = some "conf.d"
    ∧ isdir ⟨[], [("conf.json.d", ["a.json"])]⟩ "conf.d" = false := by
  decide

/-- C6 counterexample: during the second candidate of a `[conf, conf]`
run, `conf.json` exists on disk (it is merely already collected, so the
probe is skipped), yet `loaded_any` is false and the stripped-extension
retry fires — against the claim that a retry happens only when no
extension-based file existed. -/
theorem retry_despite_existing_file_cex :
    ((try_file_extensions ⟨["conf.json"], []⟩ [".json", ".py"] (convpath "conf")
        (_derive_config_fpaths ⟨["conf.json"], []⟩ [".json", ".py"] ⟨[], []⟩ "conf")).2
      = false)
    ∧ isfile ⟨["conf.json"], []⟩ (ensure_file_ext (convpath "conf") ".json") = true
    ∧ firstPassFoundNothingClaim ⟨["conf.json"], []⟩ [".json", ".py"] (convpath "conf")
      = false := by
  decide

theorem dEntry_fold_visited (cfg_exts : List String) (conf_d : String)
    (entries : List String) : ∀ (acc : CState × Bool),
    (entries.foldl (dEntryStep cfg_exts conf_d) acc).1.visited
      = acc.1.visited ++ entries.map (fragmentRecord cfg_exts conf_d) := by
  induction entries with
  | nil => intro acc; simp
  | cons f entries ih =>
      intro acc
      simp only [List.foldl_cons, List.map_cons]
      rw [ih]
      have hstep : (dEntryStep cfg_exts conf_d acc f).1.visited
          = acc.1.visited ++ [fragmentRecord cfg_exts conf_d f] := by
        by_cases h : endsWithAny f cfg_exts <;>
          simp [dEntryStep, cvisit, fragmentRecord, h]
      rw [hstep, List.append_assoc]
      rfl

theorem dExt_fold_visited (fs : FileSys) (cfg_exts : List String) (basepath : String)
    (extl : List String) : ∀ (acc : CState × Bool),
    (extl.foldl (dExtStep fs cfg_exts basepath) acc).1.visited
      = acc.1.visited ++ fragmentRecordsSpecOn fs cfg_exts extl basepath := by
  induction extl with
  | nil => intro acc; simp [fragmentRecordsSpecOn]
  | cons ext extl ih =>
      intro acc
      simp only [List.foldl_cons]
      by_cases he : endsWithS basepath ext
      · by_cases hd : isdir fs (ensure_file_ext (pyRstrip basepath ext) ".d")
        · have hstep : dExtStep fs cfg_exts basepath acc ext
              = (sortStrings (listdir fs (ensure_file_ext (pyRstrip basepath ext) ".d"))).foldl
                  (dEntryStep cfg_exts (ensure_file_ext (pyRstrip basepath ext) ".d")) acc := by
            simp [dExtStep, he, hd]
          have hspec : fragmentRecordsSpecOn fs cfg_exts (ext :: extl) basepath
              = (sortStrings (listdir fs (ensure_file_ext (pyRstrip basepath ext) ".d"))).map
                  (fragmentRecord cfg_exts (ensure_file_ext (pyRstrip basepath ext) ".d"))
                ++ fragmentRecordsSpecOn fs cfg_exts extl basepath := by
            simp [fragmentRecordsSpecOn, he, hd]
          rw [hstep, ih, dEntry_fold_visited, hspec, List.append_assoc]
        · have hstep : dExtStep fs cfg_exts basepath acc ext = acc := by
            simp [dExtStep, he, hd]
          have hspec : fragmentRecordsSpecOn fs cfg_exts (ext :: extl) basepath
              = fragmentRecordsSpecOn fs cfg_exts extl basepath := by
            simp [fragmentRecordsSpecOn, he, hd]
          rw [hstep, ih, hspec]
      · have hstep : dExtStep fs cfg_exts basepath acc ext = acc := by
          simp [dExtStep, he]
        have hspec : fragmentRecordsSpecOn fs cfg_exts (ext :: extl) basepath
            = fragmentRecordsSpecOn fs cfg_exts extl basepath := by
          simp [fragmentRecordsSpecOn, he]
        rw [hstep, ih, hspec]

/-- C5 (amended): for each extension in the empty extension followed by
the configured ones that the candidate ends with, a fragments directory is
derived by char-set-rstripping that extension and appending `.d` — so the
candidate's own path plus `.d` is always probed, in addition to the
stripped variant when the candidate ends with a configured extension.
Each existing such directory contributes its entries in lexicographic
order, strictly after the extension-based probe records of the same
candidate, an entry being recorded as loaded iff its name ends with a
configured extension (this policy is part of `fragmentRecord`). -/
theorem fragments_records_characterization (fs : FileSys) (cfg_exts : List String)
    (basepath : String) (st : CState) :
    (try_file_extensions fs cfg_exts basepath st).1.visited
      = (extPhase fs cfg_exts basepath st).1.visited
        ++ fragmentRecordsSpec fs cfg_exts basepath := by
  unfold try_file_extensions dPhase fragmentRecordsSpec
  exact dExt_fold_visited fs cfg_exts basepath ("" :: cfg_exts) _

theorem dEntry_fold_bool (cfg_exts : List String) (conf_d : String)
    (entries : List String) : ∀ (acc : CState × Bool),
    (entries.foldl (dEntryStep cfg_exts conf_d) acc).2
      = (acc.2 || entries.any (fun f => endsWithAny f cfg_exts)) := by
  induction entries with
  | nil => intro acc; simp
  | cons f entries ih =>
      intro acc
      simp only [List.foldl_cons, List.any_cons]
      rw [ih]
      have hstep : (dEntryStep cfg_exts conf_d acc f).2
          = (acc.2 || endsWithAny f cfg_exts) := rfl
      rw [hstep, Bool.or_assoc]

theorem fragmentRecord_loaded (cfg_exts : List String) (conf_d f : String) :
    (fragmentRecord cfg_exts conf_d f).2.isSome = endsWithAny f cfg_exts := by
  by_cases h : endsWithAny f cfg_exts <;> simp [fragmentRecord, h]

theorem any_map_fragmentRecord (cfg_exts : List String) (conf_d : String)
    (l : List String) :
    ((l.map (fragmentRecord cfg_exts conf_d)).any (fun r => r.2.isSome))
      = l.any (fun f => endsWithAny f cfg_exts) := by
  induction l with
  | nil => rfl
  | cons f l ih => simp only [List.map_cons, List.any_cons, ih, fragmentRecord_loaded]

theorem dExt_fold_bool (fs : FileSys) (cfg_exts : List String) (basepath : String)
    (extl : List String) : ∀ (acc : CState × Bool),
    (extl.foldl (dExtStep fs cfg_exts basepath) acc).2
      = (acc.2 || (fragmentRecordsSpecOn fs cfg_exts extl basepath).any
          (fun r => r.2.isSome)) := by
  induction extl with
  | nil => intro acc; simp [fragmentRecordsSpecOn]
  | cons ext extl ih =>
      intro acc
      simp only [List.foldl_cons]
      by_cases he : endsWithS basepath ext
      · by_cases hd : isdir fs (ensure_file_ext (pyRstrip basepath ext) ".d")
        · have hstep : dExtStep fs cfg_exts basepath acc ext
              = (sortStrings (listdir fs (ensure_file_ext (pyRstrip basepath ext) ".d"))).foldl
                  (dEntryStep cfg_exts (ensure_file_ext (pyRstrip basepath ext) ".d")) acc := by
            simp [dExtStep, he, hd]
          have hspec : fragmentRecordsSpecOn fs cfg_exts (ext :: extl) basepath
              = (sortStrings (listdir fs (ensure_file_ext (pyRstrip basepath ext) ".d"))).map
                  (fragmentRecord cfg_exts (ensure_file_ext (pyRstrip basepath ext) ".d"))
                ++ fragmentRecordsSpecOn fs cfg_exts extl basepath := by
            simp [fragmentRecordsSpecOn, he, hd]
          rw [hstep, ih, dEntry_fold_bool, hspec]
          simp only [List.any_append, any_map_fragmentRecord, Bool.or_assoc]
        · have hstep : dExtStep fs cfg_exts basepath acc ext = acc := by
            simp [dExtStep, he, hd]
          have hspec : fragmentRecordsSpecOn fs cfg_exts (ext :: extl) basepath
              = fragmentRecordsSpecOn fs cfg_exts extl basepath := by
            simp [fragmentRecordsSpecOn, he, hd]
          rw [hstep, ih, hspec]
      · have hstep : dExtStep fs cfg_exts basepath acc ext = acc := by
          simp [dExtStep, he]
        have hspec : fragmentRecordsSpecOn fs cfg_exts (ext :: extl) basepath
            = fragmentRecordsSpecOn fs cfg_exts extl basepath := by
          simp [fragmentRecordsSpecOn, he]
        rw [hstep, ih, hspec]

theorem mem_isetAdd_of_mem (s : List String) (x y : String) (h : x ∈ s) :
    x ∈ isetAdd s y := by
  by_cases hy : y ∈ s <;> simp [isetAdd, hy, h]

theorem extFold_bool (fs : FileSys) (bp : String) (extl : List String) :
    ∀ (st : CState) (b : Bool) (C0 : List String),
    (∀ x ∈ C0, x ∈ st.collected) →
    (∀ x ∈ st.collected, x ∈ C0 ∨ b = true) →
    (extl.foldl (tryOneExt fs bp) (st, b)).2
      = (b || extl.any (fun ext =>
          !decide (ensure_file_ext bp ext ∈ C0)
            && isfile fs (ensure_file_ext bp ext))) := by
  induction extl with
  | nil => intro st b C0 _ _; simp
  | cons ext extl ih =>
      intro st b C0 h1 h2
      simp only [List.foldl_cons, List.any_cons]
      by_cases hmem : ensure_file_ext bp ext ∈ st.collected
      · have hstep : tryOneExt fs bp (st, b) ext = (st, b) := by
          simp [tryOneExt, hmem]
        rw [hstep]
        rcases h2 _ hmem with hC0 | hb
        · rw [ih st b C0 h1 h2]
          simp [hC0]
        · subst hb
          rw [ih st true C0 h1 (fun x _ => Or.inr rfl)]
          simp
      · have hC0f : ensure_file_ext bp ext ∉ C0 := fun hx => hmem (h1 _ hx)
        have hstep : tryOneExt fs bp (st, b) ext
            = (cvisit st (ensure_file_ext bp ext) (isfile fs (ensure_file_ext bp ext)),
               b || isfile fs (ensure_file_ext bp ext)) := by
          simp [tryOneExt, hmem]
        rw [hstep]
        cases hf : isfile fs (ensure_file_ext bp ext) with
        | true =>
            rw [ih _ _ C0 ?_ ?_]
            · simp [hC0f]
            · intro x hx
              have hcol : (cvisit st (ensure_file_ext bp ext) true).collected
                  = isetAdd st.collected (ensure_file_ext bp ext) := by
                simp [cvisit]
              rw [hcol]
              exact mem_isetAdd_of_mem _ _ _ (h1 x hx)
            · intro x _
              exact Or.inr (by simp)
        | false =>
            have hcol : (cvisit st (ensure_file_ext bp ext) false).collected
                = st.collected := by simp [cvisit]
            rw [ih _ _ C0 ?_ ?_]
            · simp
            · intro x hx; rw [hcol]; exact h1 x hx
            · intro x hx
              rw [hcol] at hx
              rcases h2 x hx with h | h
              · exact Or.inl h
              · exact Or.inr (by simp [h])

theorem try_bool_characterization (fs : FileSys) (cfg_exts : List String)
    (basepath : String) (st : CState) :
    (try_file_extensions fs cfg_exts basepath st).2
      = first_pass_loaded_any fs cfg_exts st.collected basepath := by
  unfold try_file_extensions dPhase first_pass_loaded_any
  rw [dExt_fold_bool]
  unfold extPhase fragmentRecordsSpec
  rw [extFold_bool fs basepath cfg_exts st false st.collected
    (fun _ hx => hx) (fun _ hx => Or.inl hx)]
  simp

/-- C6 (amended): the stripped-extension retry fires iff the first pass
*loaded* nothing: every extension probe either targeted an
already-collected path (such probes are skipped and count as not found,
even when the file exists on disk) or found no file, and no
fragments-directory entry was recorded as loaded. -/
theorem derive_retry_condition (fs : FileSys) (cfg_exts : List String)
    (st : CState) (path : String) :
    _derive_config_fpaths fs cfg_exts st path
      = (if first_pass_loaded_any fs cfg_exts st.collected (convpath path)
         then (try_file_extensions fs cfg_exts (convpath path) st).1
         else (try_file_extensions fs cfg_exts (splitext (convpath path)).1
                 (try_file_extensions fs cfg_exts (convpath path) st).1).1) := by
  show (if (try_file_extensions fs cfg_exts (convpath path) st).2 = true
        then (try_file_extensions fs cfg_exts (convpath path) st).1
        else (try_file_extensions fs cfg_exts (splitext (convpath path)).1
                (try_file_extensions fs cfg_exts (convpath path) st).1).1)
      = _
  rw [try_bool_characterization]

/-! ## Visited-list independence of the collection outcome (for C4) -/

theorem foldl_pair_congr {α : Type} (f g : CState × Bool → α → CState × Bool)
    (hf : ∀ (a b : CState × Bool) (x : α),
      a.1.collected = b.1.collected → a.2 = b.2 →
      (f a x).1.collected = (g b x).1.collected ∧ (f a x).2 = (g b x).2) :
    ∀ (l : List α) (a b : CState × Bool),
      a.1.collected = b.1.collected → a.2 = b.2 →
      (l.foldl f a).1.collected = (l.foldl g b).1.collected
      ∧ (l.foldl f a).2 = (l.foldl g b).2 := by
  intro l
  induction l with
  | nil => intro a b h1 h2; exact ⟨h1, h2⟩
  | cons x l ih =>
      intro a b h1 h2
      simp only [List.foldl_cons]
      obtain ⟨h1', h2'⟩ := hf a b x h1 h2
      exact ih _ _ h1' h2'

theorem cvisit_collected (st : CState) (fpath : String) (loaded : Bool) :
    (cvisit st fpath loaded).collected
      = (if loaded then isetAdd st.collected fpath else st.collected) := by
  cases loaded <;> simp [cvisit]

theorem tryOneExt_congr (fs : FileSys) (bp : String) :
    ∀ (a b : CState × Bool) (ext : String),
    a.1.collected = b.1.collected → a.2 = b.2 →
    (tryOneExt fs bp a ext).1.collected = (tryOneExt fs bp b ext).1.collected
    ∧ (tryOneExt fs bp a ext).2 = (tryOneExt fs bp b ext).2 := by
  intro a b ext h1 h2
  by_cases hmem : ensure_file_ext bp ext ∈ b.1.collected
  · have ha : ensure_file_ext bp ext ∈ a.1.collected := by rw [h1]; exact hmem
    simp [tryOneExt, hmem, ha, h1, h2]
  · have ha : ensure_file_ext bp ext ∉ a.1.collected := by rw [h1]; exact hmem
    simp only [tryOneExt, hmem, ha, if_neg, if_false]
    constructor
    · rw [cvisit_collected, cvisit_collected, h1]
    · rw [h2]

theorem dEntryStep_congr (cfg_exts : List String) (conf_d : String) :
    ∀ (a b : CState × Bool) (f : String),
    a.1.collected = b.1.collected → a.2 = b.2 →
    (dEntryStep cfg_exts conf_d a f).1.collected
        = (dEntryStep cfg_exts conf_d b f).1.collected
    ∧ (dEntryStep cfg_exts conf_d a f).2 = (dEntryStep cfg_exts conf_d b f).2 := by
  intro a b f h1 h2
  constructor
  · show (cvisit a.1 _ _).collected = (cvisit b.1 _ _).collected
    rw [cvisit_collected, cvisit_collected, h1]
  · show (a.2 || _) = (b.2 || _)
    rw [h2]

theorem dExtStep_congr (fs : FileSys) (cfg_exts : List String) (bp : String) :
    ∀ (a b : CState × Bool) (ext : String),
    a.1.collected = b.1.collected → a.2 = b.2 →
    (dExtStep fs cfg_exts bp a ext).1.collected
        = (dExtStep fs cfg_exts bp b ext).1.collected
    ∧ (dExtStep fs cfg_exts bp a ext).2 = (dExtStep fs cfg_exts bp b ext).2 := by
  intro a b ext h1 h2
  by_cases he : endsWithS bp ext
  · by_cases hd : isdir fs (ensure_file_ext (pyRstrip bp ext) ".d")
    · simp only [dExtStep, he, hd, if_true]
      exact foldl_pair_congr _ _ (dEntryStep_congr cfg_exts _) _ a b h1 h2
    · simp [dExtStep, he, hd, h1, h2]
  · simp [dExtStep, he, h1, h2]

theorem try_congr (fs : FileSys) (cfg_exts : List String) (bp : String)
    (st st' : CState) (h : st.collected = st'.collected) :
    (try_file_extensions fs cfg_exts bp st).1.collected
        = (try_file_extensions fs cfg_exts bp st').1.collected
    ∧ (try_file_extensions fs cfg_exts bp st).2
        = (try_file_extensions fs cfg_exts bp st').2 := by
  unfold try_file_extensions dPhase extPhase
  apply foldl_pair_congr _ _ (dExtStep_congr fs cfg_exts bp)
  · exact (foldl_pair_congr _ _ (tryOneExt_congr fs bp) cfg_exts (st, false)
      (st', false) h rfl).1
  · exact (foldl_pair_congr _ _ (tryOneExt_congr fs bp) cfg_exts (st, false)
      (st', false) h rfl).2

theorem derive_congr (fs : FileSys) (cfg_exts : List String) (p : String)
    (st st' : CState) (h : st.collected = st'.collected) :
    (_derive_config_fpaths fs cfg_exts st p).collected
      = (_derive_config_fpaths fs cfg_exts st' p).collected := by
  obtain ⟨hc, hb⟩ := try_congr fs cfg_exts (convpath p) st st' h
  show (if (try_file_extensions fs cfg_exts (convpath p) st).2 = true
        then (try_file_extensions fs cfg_exts (convpath p) st).1
        else (try_file_extensions fs cfg_exts (splitext (convpath p)).1
                (try_file_extensions fs cfg_exts (convpath p) st).1).1).collected
      = (if (try_file_extensions fs cfg_exts (convpath p) st').2 = true
        then (try_file_extensions fs cfg_exts (convpath p) st').1
        else (try_file_extensions fs cfg_exts (splitext (convpath p)).1
                (try_file_extensions fs cfg_exts (convpath p) st').1).1).collected
  rw [hb]
  by_cases hr : (try_file_extensions fs cfg_exts (convpath p) st').2 = true
  · simp only [hr, if_true]
    exact hc
  · simp only [hr, if_false]
    exact (try_congr fs cfg_exts (splitext (convpath p)).1 _ _ hc).1

theorem derive_fold_congr (fs : FileSys) (cfg_exts : List String) :
    ∀ (pl : List String) (st st' : CState), st.collected = st'.collected →
    (pl.foldl (_derive_config_fpaths fs cfg_exts) st).collected
      = (pl.foldl (_derive_config_fpaths fs cfg_exts) st').collected := by
  intro pl
  induction pl with
  | nil => intro st st' h; exact h
  | cons p pl ih =>
      intro st st' h
      simp only [List.foldl_cons]
      exact ih _ _ (derive_congr fs cfg_exts p st st' h)

/-- C4 (amended): feeding the same candidate list twice through one
registry does collect the same final list (`collect_fpaths` resets the
collected set at each call and the outcome does not depend on earlier
visit records), and an extension probe for a path already in the current
collected set is skipped entirely; but fragment-directory entries carry no
such membership check, so already-collected fragment files are re-visited
and duplicate VisitRecords do occur (see the counterexample). -/
theorem collect_fpaths_idempotent_and_ext_skip :
    (∀ (fs : FileSys) (r : CfgFilesRegistry) (pl : List String),
      (CfgFilesRegistry.collect_fpaths fs
          (CfgFilesRegistry.collect_fpaths fs r pl).1 pl).2
        = (CfgFilesRegistry.collect_fpaths fs r pl).2)
    ∧ (∀ (fs : FileSys) (bp : String) (acc : CState × Bool) (ext : String),
        ensure_file_ext bp ext ∈ acc.1.collected →
        tryOneExt fs bp acc ext = acc) := by
  constructor
  · intro fs r pl
    show (pl.foldl (_derive_config_fpaths fs r.supported_cfg_extensions)
        ⟨(CfgFilesRegistry.collect_fpaths fs r pl).1.visited, []⟩).collected
      = (pl.foldl (_derive_config_fpaths fs r.supported_cfg_extensions)
        ⟨r.visited, []⟩).collected
    exact derive_fold_congr fs r.supported_cfg_extensions pl _ _ rfl
  · intro fs bp acc ext h
    simp [tryOneExt, h]

/-- Witness for C4 (amended) on a one-file filesystem. -/
theorem collect_fpaths_idempotent_and_ext_skip_witness :
    ((CfgFilesRegistry.collect_fpaths ⟨["conf.json"], []⟩
        (CfgFilesRegistry.collect_fpaths ⟨["conf.json"], []⟩
          (CfgFilesRegistry.init [".json", ".py"]) ["conf"]).1 ["conf"]).2
      = (CfgFilesRegistry.collect_fpaths ⟨["conf.json"], []⟩
          (CfgFilesRegistry.init [".json", ".py"]) ["conf"]).2)
    ∧ tryOneExt ⟨["conf.json"], []⟩ "conf" (⟨[], ["conf.json"]⟩, false) ".json"
      = (⟨[], ["conf.json"]⟩, false) :=
  ⟨collect_fpaths_idempotent_and_ext_skip.1 ⟨["conf.json"], []⟩
      (CfgFilesRegistry.init [".json", ".py"]) ["conf"],
   collect_fpaths_idempotent_and_ext_skip.2 ⟨["conf.json"], []⟩ "conf"
      (⟨[], ["conf.json"]⟩, false) ".json" (by decide)⟩

end Polyvers
